import Mathlib

/-!
# Verification of the Evaporator instrument/actuator communication layer

Shallow embedding of the repository's device drivers:

* `devices/stm100.py`  — Sycon STM-100 checksummed-frame codec (instrument A)
* `devices/acs2000.py` — ACS2000 delimited-ASCII codec (instrument B)
* `devices/plc.py`     — Modbus PLC facade (`AsyncPLC`): address maps,
  synonym resolution, switch/DAC writes, reset-retry primitives, heartbeat.

Python strings are modelled as Lean `String`, bytes as `List Nat` (each `< 256`),
Python `float` values as `ℚ`, Python `int` as `ℤ`.  Fallible Python code
(functions that may raise) is modelled with `Except`/`Option`.  Transport side
effects are modelled as explicit event traces.
-/

/-! ## Python-style character and string helpers (ASCII semantics) -/

/-- Python `str.upper` on one ASCII character. -/
def upChar (c : Char) : Char :=
  if 'a' ≤ c ∧ c ≤ 'z' then Char.ofNat (c.toNat - 32) else c

/-- Python `str.lower` on one ASCII character. -/
def lowChar (c : Char) : Char :=
  if 'A' ≤ c ∧ c ≤ 'Z' then Char.ofNat (c.toNat + 32) else c

/-- Python `str.upper` (ASCII range). -/
def pyUpper (s : String) : String := ⟨s.data.map upChar⟩

/-- Python `str.lower` (ASCII range). -/
def pyLower (s : String) : String := ⟨s.data.map lowChar⟩

/-- Python `str.strip` on a character list. -/
def stripChars (cs : List Char) : List Char :=
  ((cs.dropWhile Char.isWhitespace).reverse.dropWhile Char.isWhitespace).reverse

/-- Python `str.strip`. -/
def pyStrip (s : String) : String := ⟨stripChars s.data⟩

/-- Does the list start with the given pattern? -/
def listStartsWith [DecidableEq α] : List α → List α → Bool
  | _, [] => true
  | [], _ :: _ => false
  | a :: s, b :: p => a = b && listStartsWith s p

/-- Does the list contain the pattern as a contiguous subsequence? -/
def containsSeq [DecidableEq α] : List α → List α → Bool
  | [], pat => pat.isEmpty
  | a :: rest, pat => listStartsWith (a :: rest) pat || containsSeq rest pat

/-- Python `pat in s` (substring test). -/
def strContainsSub (s pat : String) : Bool := containsSeq s.data pat.data

/-- Python `s.startswith(pat)`. -/
def strStarts (s pat : String) : Bool := listStartsWith s.data pat.data

/-- Replace every occurrence of the nonempty pattern `p :: ps` (Python
`str.replace` semantics, scanning left to right).  Structural recursion on a
fuel argument that bounds the input length. -/
def replaceSeqFuel (p : Char) (ps rep : List Char) : Nat → List Char → List Char
  | _, [] => []
  | 0, s => s
  | fuel + 1, a :: rest =>
    if listStartsWith (a :: rest) (p :: ps) then
      rep ++ replaceSeqFuel p ps rep fuel (rest.drop ps.length)
    else
      a :: replaceSeqFuel p ps rep fuel rest

/-- Replace every occurrence of the nonempty pattern `p :: ps` in `s`
(left-to-right scan; each step consumes at least one character, so
`s.length` fuel always suffices). -/
def replaceSeqAux (p : Char) (ps rep : List Char) (s : List Char) : List Char :=
  replaceSeqFuel p ps rep s.length s

/-- Python `s.replace(pat, rep)` (no-op on an empty pattern, which the
source never uses). -/
def pyReplace (s pat rep : String) : String :=
  match pat.data with
  | [] => s
  | p :: ps => ⟨replaceSeqAux p ps rep.data s.data⟩

/-- Python `s.split(c)` for a one-character separator: splits at every
occurrence, keeping empty fields. -/
def splitOnCharL (c : Char) : List Char → List (List Char)
  | [] => [[]]
  | a :: rest =>
    match splitOnCharL c rest with
    | [] => [[]]
    | grp :: groups => if a = c then [] :: grp :: groups else (a :: grp) :: groups

/-- Split at every character satisfying `p`, keeping empty fields. -/
def splitOnPredL (p : Char → Bool) : List Char → List (List Char)
  | [] => [[]]
  | a :: rest =>
    match splitOnPredL p rest with
    | [] => [[]]
    | grp :: groups => if p a then [] :: grp :: groups else (a :: grp) :: groups

/-- Python `s.split(",")`. -/
def pySplitComma (s : String) : List String :=
  (splitOnCharL ',' s.data).map (fun cs => ⟨cs⟩)

/-- Python `s.split()` (split on whitespace runs, dropping empty fields). -/
def pySplitWs (s : String) : List String :=
  ((splitOnPredL Char.isWhitespace s.data).filter (· ≠ [])).map (fun cs => ⟨cs⟩)

/-! ## Python numeric literal parsing -/

/-- Value of a decimal digit list (most significant first). -/
def digitsVal (b : Nat) (val? : Char → Option Nat) (ds : List Char) : Option Nat :=
  ds.foldl (fun acc c => do pure ((← acc) * b + (← val? c))) (some 0)

/-- Decimal digit value (code points 48..57). -/
def decDigit? (c : Char) : Option Nat :=
  let n := c.toNat
  if 48 ≤ n ∧ n ≤ 57 then some (n - 48) else none

/-- Hexadecimal digit value, upper or lower case (`A`/`a` is code 65/97). -/
def hexDigit? (c : Char) : Option Nat :=
  let n := c.toNat
  if 48 ≤ n ∧ n ≤ 57 then some (n - 48)
  else if 65 ≤ n ∧ n ≤ 70 then some (n - 55)
  else if 97 ≤ n ∧ n ≤ 102 then some (n - 87)
  else none

/-- Parse an optional sign, returning the sign and the remainder. -/
def parseSign : List Char → ℤ × List Char
  | '+' :: rest => (1, rest)
  | '-' :: rest => (-1, rest)
  | cs => (1, cs)

/-- Python `int(s, b)` for base `b ∈ {10, 16}`: strip, optional sign, then at
least one digit of the base (a `0x`/`0X` marker is also accepted for base 16,
as Python does). -/
def pyIntBase? (b : Nat) (s : String) : Option ℤ :=
  let cs := stripChars s.data
  let (sgn, cs) := parseSign cs
  let cs := if b = 16 ∧ (listStartsWith cs ['0', 'x'] ∨ listStartsWith cs ['0', 'X'])
            then cs.drop 2 else cs
  let dig? := if b = 16 then hexDigit? else decDigit?
  if cs = [] then none
  else if cs.all (fun c => (dig? c).isSome) then
    (digitsVal b dig? cs).map (fun n => sgn * n)
  else none

/-- Python `int(s)` (base 10). -/
def pyInt? (s : String) : Option ℤ := pyIntBase? 10 s

/-- Python `int(s, 0)`: integer-literal syntax — `0x`/`0o`/`0b` markers pick
the base, otherwise decimal without leading zeros. -/
def pyIntLiteral? (s : String) : Option ℤ :=
  let cs := stripChars s.data
  let (sgn, cs) := parseSign cs
  let core? : Option Nat :=
    if listStartsWith cs ['0', 'x'] ∨ listStartsWith cs ['0', 'X'] then
      let ds := cs.drop 2
      if ds ≠ [] ∧ ds.all (fun c => (hexDigit? c).isSome) then digitsVal 16 hexDigit? ds else none
    else if listStartsWith cs ['0', 'o'] ∨ listStartsWith cs ['0', 'O'] then
      let ds := cs.drop 2
      if ds ≠ [] ∧ ds.all (fun c => (decDigit? c).isSome ∧ c ≤ '7') then
        digitsVal 8 decDigit? ds else none
    else if listStartsWith cs ['0', 'b'] ∨ listStartsWith cs ['0', 'B'] then
      let ds := cs.drop 2
      if ds ≠ [] ∧ ds.all (fun c => c = '0' ∨ c = '1') then digitsVal 2 decDigit? ds else none
    else if cs ≠ [] ∧ cs.all (fun c => (decDigit? c).isSome) then
      if listStartsWith cs ['0'] ∧ cs.any (· ≠ '0') then none
      else digitsVal 10 decDigit? cs
    else none
  core?.map (fun n => sgn * (n : ℤ))

/-- Mantissa of a Python float literal: `digits [. digits]` or `. digits`. -/
def parseMant : List Char → Option ℚ :=
  fun cs =>
    let ip := cs.takeWhile (fun c => (decDigit? c).isSome)
    let rest := cs.dropWhile (fun c => (decDigit? c).isSome)
    match rest with
    | [] =>
      if ip = [] then none
      else (digitsVal 10 decDigit? ip).map (fun n => (n : ℚ))
    | '.' :: rest2 =>
      let fp := rest2.takeWhile (fun c => (decDigit? c).isSome)
      let rest3 := rest2.dropWhile (fun c => (decDigit? c).isSome)
      if rest3 ≠ [] then none
      else if ip = [] ∧ fp = [] then none
      else do
        let iv ← digitsVal 10 decDigit? ip
        let fv ← digitsVal 10 decDigit? fp
        pure ((iv : ℚ) + (fv : ℚ) / (10 : ℚ) ^ fp.length)
    | _ => none

/-- Exponent part of a Python float literal: optional sign then digits. -/
def parseExpInt : List Char → Option ℤ :=
  fun cs =>
    let (sgn, ds) := parseSign cs
    if ds ≠ [] ∧ ds.all (fun c => (decDigit? c).isSome) then
      (digitsVal 10 decDigit? ds).map (fun n => sgn * n)
    else none

/-- Python `float(s)` on the ordinary decimal/scientific forms (the special
forms `inf`/`nan` and digit underscores are not modelled; the replies parsed
by the drivers never use them). -/
def pyFloat? (s : String) : Option ℚ :=
  let cs := stripChars s.data
  let (sgn, cs) := parseSign cs
  let mantCs := cs.takeWhile (fun c => c ≠ 'e' ∧ c ≠ 'E')
  let rest := cs.dropWhile (fun c => c ≠ 'e' ∧ c ≠ 'E')
  do
    let m ← parseMant mantCs
    let e ← match rest with
      | [] => pure (0 : ℤ)
      | _ :: expCs => parseExpInt expCs
    pure ((sgn : ℚ) * m * (10 : ℚ) ^ e)

/-- Floor of a rational (used to model Python `round`). -/
def ratFloor (q : ℚ) : ℤ := q.num.fdiv q.den

/-- Python `round` (banker's rounding: ties go to the even integer). -/
def pyRound (q : ℚ) : ℤ :=
  let n := ratFloor q
  let f := q - (n : ℚ)
  if f < 1 / 2 then n
  else if 1 / 2 < f then n + 1
  else if Even n then n else n + 1

/-! ## Instrument A — STM-100 codec (`devices/stm100.py`) -/

/-- Start-of-text marker byte. -/
def STX : Nat := 2

/-- Response codes the driver treats as success (`_OK_CODES = {"A", "B"}`). -/
def OK_CODES : List String := ["A", "B"]

/-- `checksum_data_only`: sum of the data bytes, modulo 256. -/
def checksum_data_only (data : List Nat) : Nat := data.sum % 256

/-- Python `s.encode("ascii", errors="replace")`: ASCII characters map to
their code, anything else to `?` (0x3F). -/
def encodeAsciiReplace (s : String) : List Nat :=
  s.data.map (fun c => if c.toNat ≤ 127 then c.toNat else 63)

/-- Python `bs.decode("ascii", errors="replace")`: bytes above 0x7F decode to
U+FFFD. -/
def decodeAsciiReplace (bs : List Nat) : String :=
  ⟨bs.map (fun b => if b ≤ 127 then Char.ofNat b else Char.ofNat 0xFFFD)⟩

/-- `build_frame`: `STX(1) | LEN(1) | DATA(LEN) | CHK(1)`; rejects data
outside 1..10 bytes (`none` models the `ValueError`). -/
def build_frame (data_ascii : String) : Option (List Nat) :=
  let data := encodeAsciiReplace data_ascii
  if 1 ≤ data.length ∧ data.length ≤ 10 then
    some ([STX, data.length] ++ data ++ [checksum_data_only data])
  else none

/-- Errors `read_frame` can raise. -/
inductive FrameErr where
  | stxTimeout
  | lenTimeout
  | invalidLen (ln : Nat)
  | dataTimeout
  | chkTimeout
  deriving DecidableEq, Repr

/-- `read_frame` over a finite byte stream: scan for STX, read LEN, validate
`1 ≤ LEN ≤ 10`, read LEN data bytes and one checksum byte, return the decoded
payload with the checksum-valid flag. -/
def read_frame (stream : List Nat) : Except FrameErr (String × Bool) :=
  match stream.dropWhile (· ≠ STX) with
  | [] => .error .stxTimeout
  | _stx :: rest =>
    match rest with
    | [] => .error .lenTimeout
    | ln :: rest2 =>
      if 1 ≤ ln ∧ ln ≤ 10 then
        let data := rest2.take ln
        if data.length ≠ ln then .error .dataTimeout
        else
          match rest2.drop ln with
          | [] => .error .chkTimeout
          | chk :: _ =>
            .ok (decodeAsciiReplace data, checksum_data_only data == chk)
      else .error (.invalidLen ln)

/-- Errors of the STM-100 driver layers above framing. -/
inductive STMErr where
  | checksumMismatch
  | commandRejected (code : String)
  | parseError
  deriving DecidableEq, Repr

/-- The reply record built by `exchange`: status code (first character),
body (remainder), raw payload. -/
structure STMReply where
  code : String
  body : String
  raw : String
  deriving DecidableEq, Repr

/-- `exchange`, given the payload and checksum flag produced by `read_frame`:
checksum failure raises, otherwise split the payload into code and body. -/
def exchangeParse (payload : String) (chk_ok : Bool) : Except STMErr STMReply :=
  if !chk_ok then .error .checksumMismatch
  else
    .ok { code := ⟨payload.data.take 1⟩
          body := ⟨payload.data.drop 1⟩
          raw := payload }

/-- `command` (reply side): reject any status code outside `_OK_CODES`,
otherwise return the (stripped) body. -/
def commandParse (payload : String) (chk_ok : Bool) (strip_body : Bool := true) :
    Except STMErr String := do
  let rep ← exchangeParse payload chk_ok
  if rep.code ∉ OK_CODES then
    .error (.commandRejected rep.code)
  else
    pure (if strip_body then pyStrip rep.body else rep.body)

/-- `get_thickness_angstrom` / `get_thickness`, as a function of the reply
frame: `float(int(body))`. -/
def get_thickness (payload : String) (chk_ok : Bool) : Except STMErr ℚ := do
  let s ← commandParse payload chk_ok
  match pyInt? s with
  | some z => pure (z : ℚ)
  | none => .error .parseError

/-! ## Instrument B — ACS2000 codec (`devices/acs2000.py`) -/

/-- Errors of the ACS2000 driver. -/
inductive AcsErr where
  | protocolError (raw : String)
  | parseError (raw : String)
  | invalidChannel
  deriving DecidableEq, Repr

/-- `_split_status_data`: `ERR_` anywhere means error, a reply beginning with
`OK` is status `OK`, anything else is `DATA`; the raw reply rides along. -/
def acsSplitStatusData (reply : String) : String × String :=
  if strContainsSub reply "ERR_" then ("ERR", reply)
  else if strStarts reply "OK" then ("OK", reply)
  else ("DATA", reply)

/-- `for t in reversed(tokens): try: return float(t)` — the first
float-convertible token scanning from the end. -/
def findFloatFromEnd (tokens : List String) : Option ℚ :=
  tokens.reverse.findSome? pyFloat?

/-- The reply-parsing part of `query_pressure`: status split, global removal
of `$` and `OK`, comma tokens scanned from the end, then the
whitespace-token fallback, else `ACS2000ProtocolError`. -/
def query_pressure_parse (reply : String) : Except AcsErr ℚ :=
  let sd := acsSplitStatusData reply
  if sd.1 = "ERR" then .error (.protocolError sd.2)
  else
    let raw := sd.2
    let tokens := pySplitComma (pyReplace (pyReplace raw "$" "") "OK" "")
    let tokens := (tokens.map pyStrip).filter (· ≠ "")
    match findFloatFromEnd tokens with
    | some v => .ok v
    | none =>
      match findFloatFromEnd (pySplitWs (pyReplace raw "$" "")) with
      | some v => .ok v
      | none => .error (.parseError raw)

/-- `query_pressure(channel)` as a function of the device reply: channel must
be 1 or 2, then the reply is parsed. -/
def query_pressure (channel : ℤ) (reply : String) : Except AcsErr ℚ :=
  if channel = 1 ∨ channel = 2 then query_pressure_parse reply
  else .error .invalidChannel

/-- The parsing behavior exactly as claim C5 words it (for comparison with
`query_pressure_parse`): strip a *leading* `$` and a *leading* `OK`, split the
remainder on commas, scan from the end for the first float-convertible token,
and fail when no comma token is convertible. -/
def queryPressureClaimed (reply : String) : Except AcsErr ℚ :=
  let sd := acsSplitStatusData reply
  if sd.1 = "ERR" then .error (.protocolError sd.2)
  else
    let raw := sd.2
    let s := if strStarts raw "$" then (⟨raw.data.drop 1⟩ : String) else raw
    let s := if strStarts s "OK" then (⟨s.data.drop 2⟩ : String) else s
    let tokens := ((pySplitComma s).map pyStrip).filter (· ≠ "")
    match findFloatFromEnd tokens with
    | some v => .ok v
    | none => .error (.parseError raw)

/-- The amended description of `query_pressure`'s parsing, written from the
corrected claim text: remove every occurrence of `$` and then of `OK`, split
on commas, take the *last* float-convertible token; if none, take the last
float-convertible whitespace-separated token of the `$`-stripped reply; only
when both scans fail raise a parse error. -/
def queryPressureAmendedSpec (reply : String) : Except AcsErr ℚ :=
  if strContainsSub reply "ERR_" then .error (.protocolError reply)
  else
    let cleaned := pyReplace (pyReplace reply "$" "") "OK" ""
    let toks := ((pySplitComma cleaned).map pyStrip).filter (· ≠ "")
    match (toks.filterMap pyFloat?).getLast? with
    | some v => .ok v
    | none =>
      match ((pySplitWs (pyReplace reply "$" "")).filterMap pyFloat?).getLast? with
      | some v => .ok v
      | none => .error (.parseError reply)

/-! ## PLC facade (`devices/plc.py`) — address maps and resolution -/

/-- `PLC_COIL_MAP` — coil name → coil address (source hex literals in
decimal), in source insertion order. -/
def PLC_COIL_MAP : List (String × ℤ) :=
  [("R_P_SW", 0), ("R_V_SW", 1), ("F_V_SW", 2), ("M_V_SW", 3),
   ("V_V_SW", 4), ("TMP_SW", 5),
   ("SHUTTER_1_SW", 6), ("SHUTTER_2_SW", 7), ("MAIN_SHUTTER_SW", 8),
   ("FTM_SW", 11),
   ("POWER_1_SW", 9), ("POWER_2_SW", 10), ("DOOR_SW", 12),
   ("AIR_SW", 32), ("WATER_SW", 33), ("GAS_1_SW", 34), ("GAS_2_SW", 35)]

/-- `PLC_REG_MAP` — holding-register name → register address. -/
def PLC_REG_MAP : List (String × ℤ) :=
  [("DAC_POWER_1", 0), ("DAC_POWER_2", 1)]

/-- The normalization `upper` + removal of space/underscore/hyphen/slash used
by `_addr` and `_is_reg_name` (their inputs are already stripped). -/
def normKey (s : String) : String :=
  ⟨(pyUpper s).data.filter (fun c => c ≠ ' ' ∧ c ≠ '_' ∧ c ≠ '-' ∧ c ≠ '/')⟩

/-- The `norm` helper of `_build_synonyms` (strip, then `normKey`). -/
def buildNorm (s : String) : String := normKey (pyStrip s)

/-- The hand-authored alias assignments of `_build_synonyms`, in source
order. -/
def synAliasList : List (String × String) :=
  [("RP", "R_P_SW"), ("RV", "R_V_SW"), ("FV", "F_V_SW"), ("MV", "M_V_SW"),
   ("VV", "V_V_SW"), ("V/V", "V_V_SW"), ("VENT", "V_V_SW"), ("TMP", "TMP_SW"),
   ("SHUTTER1", "SHUTTER_1_SW"), ("SHUTTER2", "SHUTTER_2_SW"),
   ("MAINSHUTTER", "MAIN_SHUTTER_SW"), ("MS", "MAIN_SHUTTER_SW"),
   ("AIR", "AIR_SW"), ("WATER", "WATER_SW"),
   ("G1", "GAS_1_SW"), ("G2", "GAS_2_SW"), ("GAS1", "GAS_1_SW"), ("GAS2", "GAS_2_SW"),
   ("POWER1", "POWER_1_SW"), ("POWER2", "POWER_2_SW"), ("DOOR", "DOOR_SW"),
   ("FTM", "FTM_SW"),
   ("DACPOWER1", "DAC_POWER_1"), ("DACPOWER2", "DAC_POWER_2"),
   ("DAC1", "DAC_POWER_1"), ("DAC2", "DAC_POWER_2")]

/-- The dict assignments performed by `_build_synonyms`, in execution order:
normalized map keys first, then the hand-authored aliases. -/
def synAssignments : List (String × String) :=
  ((PLC_COIL_MAP ++ PLC_REG_MAP).map (fun p => (buildNorm p.1, p.1))) ++
  (synAliasList.map (fun p => (buildNorm p.1, p.2)))

/-- `self._SYNONYMS[nk]` — Python dict semantics: the latest assignment to a
key wins. -/
def synLookup (nk : String) : Option String :=
  synAssignments.reverse.lookup nk

/-- Errors raised by the PLC facade. -/
inductive PlcErr where
  | emptyName
  | valueError
  | unknownAddress
  | typeMismatch
  | invalidChannel
  deriving DecidableEq, Repr

/-- `_parse_m_device_to_coil`: strip/upper, require the `M` device marker,
parse the remainder as hexadecimal. -/
def parse_m_device_to_coil (s : String) : Except PlcErr ℤ :=
  let t := pyUpper (pyStrip s)
  if ¬ strStarts t "M" then .error .valueError
  else
    match pyIntBase? 16 (⟨t.data.drop 1⟩ : String) with
    | some n => .ok n
    | none => .error .valueError

/-- `_parse_d_device_to_reg`: strip/upper, require the `D` device marker,
parse the remainder as hexadecimal when it contains hex letters, else
decimal. -/
def parse_d_device_to_reg (s : String) : Except PlcErr ℤ :=
  let t := pyUpper (pyStrip s)
  if ¬ strStarts t "D" then .error .valueError
  else
    let num : String := ⟨t.data.drop 1⟩
    let base := if num.data.any (fun c => c ∈ ['A', 'B', 'C', 'D', 'E', 'F']) then 16 else 10
    match pyIntBase? base num with
    | some n => .ok n
    | none => .error .valueError

/-- `AsyncPLC._addr`: (1) integers pass through; (2) exact coil/register map
key; (3) synonym lookup re-resolved through the maps; (4) `M…`/`D…` device
strings; (5) generic integer literal; otherwise `KeyError`. -/
def plcAddr (name_or_addr : String ⊕ ℤ) : Except PlcErr ℤ :=
  match name_or_addr with
  | .inr n => .ok n
  | .inl s =>
    let key_raw := pyStrip s
    if key_raw = "" then .error .emptyName
    else
      match PLC_COIL_MAP.lookup key_raw with
      | some a => .ok a
      | none =>
        match PLC_REG_MAP.lookup key_raw with
        | some a => .ok a
        | none =>
          let nk := normKey key_raw
          let viaSyn : Option ℤ := do
            let canonical ← synLookup nk
            match PLC_COIL_MAP.lookup canonical with
            | some a => some a
            | none => PLC_REG_MAP.lookup canonical
          match viaSyn with
          | some a => .ok a
          | none =>
            let up := pyUpper key_raw
            if strStarts up "M" then parse_m_device_to_coil up
            else if strStarts up "D" then parse_d_device_to_reg up
            else
              match pyIntLiteral? key_raw with
              | some n => .ok n
              | none => .error .unknownAddress

/-- `AsyncPLC._is_reg_name`: integers are never register names; a stripped
string is a register name when it is a register-map key, when its normalized
form resolves through the synonyms to a register-map key, or — the final
fallback — when its upper-cased form starts with `D`. -/
def is_reg_name (name : String ⊕ ℤ) : Bool :=
  match name with
  | .inr _ => false
  | .inl name =>
    let s := pyStrip name
    if (PLC_REG_MAP.lookup s).isSome then true
    else
      let nk := normKey s
      let viaSyn : Bool :=
        match synLookup nk with
        | some canonical => (PLC_REG_MAP.lookup canonical).isSome
        | none => false
      if viaSyn then true
      else strStarts (pyUpper s) "D"

/-! ## PLC facade — switch, register and DAC writes (event-trace model) -/

/-- A transport-level action performed by a high-level PLC operation. -/
inductive PlcEvent where
  | writeCoilEv (addr : ℤ) (value : Bool)
  | readCoilEv (addr : ℤ)
  | writeRegEv (addr : ℤ) (value : ℤ)
  | sleepEv (seconds : ℚ)
  deriving DecidableEq, Repr

/-- `pulse`: drive the coil true, sleep `max(0.01, width/1000)` seconds,
drive it false. -/
def pulse (addr : ℤ) (ms : Option ℤ) (cfg_pulse_ms : ℤ) : List PlcEvent :=
  let width := ms.getD cfg_pulse_ms
  [.writeCoilEv addr true, .sleepEv (max (1 / 100) ((width : ℚ) / 1000)),
   .writeCoilEv addr false]

/-- `write_switch`: resolve the address, reject register-looking names with
`TypeError`, then either pulse (momentary) or latch-write the coil.  The
returned list is the trace of transport actions; an error means the raise
happened before any transport write. -/
def write_switch (name_or_addr : String ⊕ ℤ) (onv : Bool) (momentary : Bool)
    (pulse_ms : Option ℤ) (cfg_pulse_ms : ℤ) : Except PlcErr (List PlcEvent) := do
  let addr ← plcAddr name_or_addr
  if is_reg_name name_or_addr then .error .typeMismatch
  else if momentary then pure (pulse addr pulse_ms cfg_pulse_ms)
  else pure [.writeCoilEv addr onv]

/-- `read_bit`: resolve the address, reject register-looking names with
`TypeError`, then read the coil (`coilState` is the device's coil table). -/
def read_bit (coilState : ℤ → Bool) (name_or_addr : String ⊕ ℤ) :
    Except PlcErr (Bool × List PlcEvent) := do
  let addr ← plcAddr name_or_addr
  if is_reg_name name_or_addr then .error .typeMismatch
  else pure (coilState addr, [.readCoilEv addr])

/-- `door`: delegates to `write_switch("DOOR", on, momentary=momentary)`. -/
def door (onv momentary : Bool) (cfg_pulse_ms : ℤ) : Except PlcErr (List PlcEvent) :=
  write_switch (.inl "DOOR") onv momentary none cfg_pulse_ms

/-- `write_reg_name`: resolve the address and write the register (the
register-map membership check in the source is advisory only — a non-register
name is still written). -/
def write_reg_name (name_or_addr : String ⊕ ℤ) (value : ℤ) :
    Except PlcErr (List PlcEvent) := do
  let addr ← plcAddr name_or_addr
  pure [.writeRegEv addr value]

/-- The DAC-scaling fields of `PLCConfig`, with the source's defaults. -/
structure DacCfg where
  dac_full_scale_code : ℤ := 4095
  dac_full_scale_volt : ℚ := 10
  dac_offset_code : ℤ := 0
  deriving DecidableEq, Repr

/-- `set_dac_power(ch, code)`: channel 1 → `DAC_POWER_1`, channel 2 →
`DAC_POWER_2`, anything else raises. -/
def set_dac_power (ch : ℤ) (code : ℤ) : Except PlcErr (List PlcEvent) :=
  if ch = 1 then write_reg_name (.inl "DAC_POWER_1") code
  else if ch = 2 then write_reg_name (.inl "DAC_POWER_2") code
  else .error .invalidChannel

/-- `set_dac_voltage(ch, volt)`: clamp the voltage into `[0, full_scale_volt]`,
scale into a code, add the offset, clamp the code into `[0, full_scale_code]`,
and write it to the channel's register; returns the code. -/
def set_dac_voltage (cfg : DacCfg) (ch : ℤ) (volt : ℚ) :
    Except PlcErr (ℤ × List PlcEvent) := do
  let v := max 0 (min cfg.dac_full_scale_volt volt)
  let fs_code := cfg.dac_full_scale_code
  let fs_volt := cfg.dac_full_scale_volt
  let offset := cfg.dac_offset_code
  let code0 := pyRound ((v / fs_volt) * (fs_code : ℚ)) + offset
  let code := max 0 (min fs_code code0)
  let evs ← set_dac_power ch code
  pure (code, evs)

/-- The code clamp of `set_dac_voltage` in isolation. -/
def clampCode (fs_code : ℤ) (code : ℤ) : ℤ := max 0 (min fs_code code)

/-! ## PLC primitives — reconnect-on-reset retry (`read_coil` .. `write_reg`) -/

/-- `_is_reset_err`: substring detection over the lower-cased error text. -/
def is_reset_err (e : String) : Bool :=
  let s := pyLower e
  strContainsSub s "10054" || strContainsSub s "reset by peer" ||
    strContainsSub s "connectionreseterror"

/-- A pymodbus response: error flag plus payload bits/registers. -/
structure MbResp where
  isErr : Bool := false
  bits : List Bool := []
  registers : List ℤ := []
  deriving DecidableEq, Repr

/-- `_ensure_ok`: fault responses raise `ModbusException`. -/
def ensure_ok (resp : MbResp) : Except String MbResp :=
  if resp.isErr then .error "ModbusException" else .ok resp

/-- A call made against the pymodbus client. -/
inductive MbCall where
  | readCoilsC (addr : ℤ) (count : ℕ)
  | writeCoilC (addr : ℤ) (value : Bool)
  | readHoldingC (addr : ℤ) (count : ℕ)
  | writeRegisterC (addr : ℤ) (value : ℤ)
  deriving DecidableEq, Repr

/-- Connection-level actions taken by a primitive. -/
inductive IoEvent where
  | clientCall (c : MbCall)
  | closeConn
  | openConn
  deriving DecidableEq, Repr

/-- The shared try/except shape of the four primitives: issue the client call
(first outcome `o1`); on an exception matching a reset signature, close,
reopen, and issue the *same* call once more (outcome `o2`); any other
exception propagates at once. -/
def withResetRetry (req : MbCall) (o1 o2 : Except String MbResp) :
    Except String MbResp × List IoEvent :=
  match o1 with
  | .ok r => (.ok r, [.clientCall req])
  | .error e =>
    if is_reset_err e then
      (o2, [.clientCall req, .closeConn, .openConn, .clientCall req])
    else
      (.error e, [.clientCall req])

/-- `read_coil(addr)` over transport outcomes `o1`, `o2`. -/
def read_coil (addr : ℤ) (o1 o2 : Except String MbResp) :
    Except String Bool × List IoEvent :=
  let r := withResetRetry (.readCoilsC addr 1) o1 o2
  ((do
      let resp ← r.1
      let resp ← ensure_ok resp
      match resp.bits.head? with
      | some b => pure b
      | none => Except.error "IndexError"),
   r.2)

/-- `write_coil(addr, value)` over transport outcomes `o1`, `o2`. -/
def write_coil (addr : ℤ) (value : Bool) (o1 o2 : Except String MbResp) :
    Except String Unit × List IoEvent :=
  let r := withResetRetry (.writeCoilC addr value) o1 o2
  ((do
      let resp ← r.1
      let _ ← ensure_ok resp
      pure ()),
   r.2)

/-- `read_reg(addr)` over transport outcomes `o1`, `o2`. -/
def read_reg (addr : ℤ) (o1 o2 : Except String MbResp) :
    Except String ℤ × List IoEvent :=
  let r := withResetRetry (.readHoldingC addr 1) o1 o2
  ((do
      let resp ← r.1
      let resp ← ensure_ok resp
      match resp.registers.head? with
      | some v => pure v
      | none => Except.error "IndexError"),
   r.2)

/-- `write_reg(addr, value)` over transport outcomes `o1`, `o2`. -/
def write_reg (addr : ℤ) (value : ℤ) (o1 o2 : Except String MbResp) :
    Except String Unit × List IoEvent :=
  let r := withResetRetry (.writeRegisterC addr value) o1 o2
  ((do
      let resp ← r.1
      let _ ← ensure_ok resp
      pure ()),
   r.2)

/-! ## Heartbeat (`_heartbeat_loop`, `_throttle_and_heartbeat`) -/

/-- The sleep of one `_heartbeat_loop` iteration: `max(1.0, heartbeat_s/3)`. -/
def hbSleep (heartbeat_s : ℚ) : ℚ := max 1 (heartbeat_s / 3)

/-- Observable state one `_heartbeat_loop` iteration runs against. -/
structure HbCtx where
  closed : Bool
  paused : Bool
  clientPresent : Bool
  idle_s : ℚ
  heartbeat_s : ℚ
  deriving DecidableEq, Repr

/-- What one heartbeat iteration did. -/
inductive HbStep where
  | stopped
  | skipped
  | readDone
  | readFailed
  deriving DecidableEq, Repr

/-- One iteration of the background `_heartbeat_loop` after waking: stop when
closed, skip when paused; otherwise attempt `read_coils(0, 1)` (outcome
`readOutcome`) with every exception swallowed (`continue`).  Note the source
never consults the idle time here. -/
def heartbeat_iterate (st : HbCtx) (readOutcome : Except String Bool) :
    Except String HbStep :=
  if st.closed then .ok .stopped
  else if st.paused then .ok .skipped
  else
    match (do
        if !st.clientPresent then pure HbStep.skipped
        else do
          let _ ← readOutcome
          pure HbStep.readDone : Except String HbStep) with
    | .ok r => .ok r
    | .error _ => .ok .readFailed

/-- Did the iteration attempt the trivial read? -/
def hbDidRead : HbStep → Bool
  | .readDone => true
  | .readFailed => true
  | _ => false

/-- `_throttle_and_heartbeat(delta)`: the throttle sleep and whether the
inline keepalive read of coil 0 fires (this is where the idle-time test
lives; its failures are also swallowed). -/
def throttle_and_heartbeat (delta inter_cmd_gap_s heartbeat_s : ℚ)
    (hb_paused clientPresent : Bool) : ℚ × Bool :=
  ((if delta < inter_cmd_gap_s then inter_cmd_gap_s - delta else 0),
   decide (delta > heartbeat_s) && !hb_paused && clientPresent)

/-! ## `read_coils_block` (called by the HMI binder, spec-modelled) -/

/-- A single contiguous-range coil read request. -/
structure BlockReq where
  start : ℤ
  count : ℕ
  deriving DecidableEq, Repr

/-- Modelled from the spec: `read_coils_block(start, count)` is invoked by
`PlcWorker._read_hmi_states` (`controller/hmi_plc_binder.py`) but its
definition is not among the sources.  Per the spec it issues a *single*
request spanning the contiguous range and zero-pads a short device response
to `count` booleans.  `deviceBits` is the bit list the device returns for
that single request. -/
def read_coils_block (deviceBits : List Bool) (start : ℤ) (count : ℕ) :
    List Bool × List BlockReq :=
  (deviceBits.take count ++
     List.replicate (count - (deviceBits.take count).length) false,
   [⟨start, count⟩])

/-! ## Decidability of `Except` equality (for concrete evaluations) -/

instance exceptDecEq {ε α : Type} [DecidableEq ε] [DecidableEq α] :
    DecidableEq (Except ε α) := fun x y =>
  match x, y with
  | .ok a, .ok b =>
    if h : a = b then .isTrue (by rw [h]) else .isFalse (by intro hc; cases hc; exact h rfl)
  | .error a, .error b =>
    if h : a = b then .isTrue (by rw [h]) else .isFalse (by intro hc; cases hc; exact h rfl)
  | .ok _, .error _ => .isFalse (by intro hc; cases hc)
  | .error _, .ok _ => .isFalse (by intro hc; cases hc)

/-! ## Shared helper lemmas -/

/-- Scanning a list from the end for the first hit of `f` is taking the last
element of its `filterMap`. -/
theorem findSome_reverse_eq_getLast (f : α → Option β) (l : List α) :
    l.reverse.findSome? f = (l.filterMap f).getLast? := by
  induction l with
  | nil => rfl
  | cons a l ih =>
    rw [List.reverse_cons, List.findSome?_append, ih, List.filterMap_cons]
    cases h : f a with
    | none =>
      simp [List.findSome?, h]
    | some b =>
      simp only [List.findSome?, h]
      rw [show b :: List.filterMap f l = [b] ++ List.filterMap f l from rfl,
        List.getLast?_append]
      simp

/-- Decoding after ASCII-encoding is the identity on pure-ASCII strings. -/
theorem decode_encode_ascii (s : String) (h : ∀ c ∈ s.data, c.toNat ≤ 127) :
    decodeAsciiReplace (encodeAsciiReplace s) = s := by
  cases s with
  | mk data =>
    unfold decodeAsciiReplace encodeAsciiReplace
    simp only
    congr 1
    rw [List.map_map]
    have hid : ∀ c ∈ data,
        ((fun b => if b ≤ 127 then Char.ofNat b else Char.ofNat 0xFFFD) ∘
          (fun c => if c.toNat ≤ 127 then c.toNat else 63)) c = id c := by
      intro c hc
      simp [Function.comp, h c hc, Char.ofNat_toNat]
    rw [List.map_congr_left hid, List.map_id]

/-! ## Claim theorems -/

/-- C1: for every start `s` and count `n`, `read_coils_block(s, n)` issues a
single contiguous-range request and returns exactly `n` booleans, with bits
beyond those returned by the device padded to `false`; in particular a
13-bit read answered with only 10 bits yields a length-13 list whose last 3
entries are `false`. -/
theorem C1_readCoilsBlock_zero_pads :
    (∀ (bits : List Bool) (s : ℤ) (n : ℕ),
      (read_coils_block bits s n).1.length = n ∧
      (read_coils_block bits s n).2 = [⟨s, n⟩] ∧
      ∀ i : ℕ, bits.length ≤ i → i < n →
        (read_coils_block bits s n).1.getD i true = false) ∧
    (read_coils_block (List.replicate 10 true) 0 13).1 =
      List.replicate 10 true ++ [false, false, false] := by
  constructor
  · intro bits s n
    refine ⟨?_, rfl, ?_⟩
    · simp only [read_coils_block, List.length_append, List.length_replicate,
        List.length_take]
      omega
    · intro i hbl hin
      have hd : (bits.take n).length = min n bits.length := List.length_take n bits
      have h1 : (bits.take n).length ≤ i := by omega
      unfold read_coils_block
      simp only
      rw [List.getD_append_right _ _ _ _ h1, List.getD_eq_getElem?_getD,
        List.getElem?_replicate]
      simp only [List.length_take]
      have h2 : i - n ⊓ bits.length < n - n ⊓ bits.length := by omega
      simp [h2]
  · decide

/-- C1 witness: a 1-bit device response to a 3-bit block read at start 5 is
padded — position 2 reads `false`. -/
theorem C1_readCoilsBlock_zero_pads_witness :
    (read_coils_block [true] 5 3).1.getD 2 true = false :=
  (C1_readCoilsBlock_zero_pads.1 [true] 5 3).2.2 2 (by decide) (by decide)

/-- C2 counterexample: the reply payload `"C-0001595"` has status code `C`,
which is not in `_OK_CODES = {A, B}`, so `get_thickness` raises
`STM100CommandError` instead of returning `-1595.0` as the claim states. -/
theorem C2_counterexample :
    get_thickness "C-0001595" true = .error (.commandRejected "C") ∧
    get_thickness "C-0001595" true ≠ .ok (-1595) := by
  constructor
  · rfl
  · decide

/-- C2 (amended): a reply payload whose status code is an OK code (`A` or
`B`) with body `"-0001595"` makes `get_thickness` return `-1595.0`; the
payload `"C-0001595"` of the original claim instead raises
`STM100CommandError` because `C` is not an OK code. -/
theorem C2_thickness_amended :
    get_thickness "A-0001595" true = .ok (-1595) ∧
    get_thickness "B-0001595" true = .ok (-1595) ∧
    get_thickness "C-0001595" true = .error (.commandRejected "C") := by
  refine ⟨by decide, by decide, rfl⟩

/-- C3: for ASCII payloads of 1..10 characters, parsing the frame built by
`build_frame` returns exactly the payload with a valid checksum; and
`build_frame` rejects payloads whose encoded length is outside 1..10. -/
theorem C3_frame_roundtrip :
    (∀ s : String, (∀ c ∈ s.data, c.toNat ≤ 127) → 1 ≤ s.length → s.length ≤ 10 →
      build_frame s = some ([STX, (encodeAsciiReplace s).length] ++
          encodeAsciiReplace s ++ [checksum_data_only (encodeAsciiReplace s)]) ∧
      read_frame ([STX, (encodeAsciiReplace s).length] ++ encodeAsciiReplace s ++
          [checksum_data_only (encodeAsciiReplace s)]) = .ok (s, true)) ∧
    (∀ s : String,
      ¬(1 ≤ (encodeAsciiReplace s).length ∧ (encodeAsciiReplace s).length ≤ 10) →
      build_frame s = none) := by
  have hframe : ∀ (d : List Nat) (chk : Nat), 1 ≤ d.length → d.length ≤ 10 →
      read_frame (STX :: d.length :: (d ++ [chk])) =
        .ok (decodeAsciiReplace d, checksum_data_only d == chk) := by
    intro d chk hd1 hd10
    unfold read_frame
    have hdw : List.dropWhile (fun x => decide (x ≠ STX)) (STX :: d.length :: (d ++ [chk]))
        = STX :: d.length :: (d ++ [chk]) := by
      rw [List.dropWhile_cons]
      simp
    rw [hdw]
    dsimp only
    rw [if_pos ⟨hd1, hd10⟩, List.take_left, List.drop_left, if_neg (by simp)]
  constructor
  · intro s hascii h1 h10
    have hlen : (encodeAsciiReplace s).length = s.length := by
      simp [encodeAsciiReplace]
    have hcond : 1 ≤ (encodeAsciiReplace s).length ∧ (encodeAsciiReplace s).length ≤ 10 :=
      ⟨by omega, by omega⟩
    constructor
    · simp [build_frame, hcond.1, hcond.2]
    · have hstream : [STX, (encodeAsciiReplace s).length] ++ encodeAsciiReplace s ++
          [checksum_data_only (encodeAsciiReplace s)] =
          STX :: (encodeAsciiReplace s).length ::
            (encodeAsciiReplace s ++ [checksum_data_only (encodeAsciiReplace s)]) := by
        simp
      rw [hstream, hframe _ _ hcond.1 hcond.2, decode_encode_ascii s hascii]
      simp
  · intro s hbad
    simp only [build_frame]
    rw [if_neg hbad]

/-- C3 witness: the concrete payload `"PRD"` round-trips with a valid
checksum, and an over-long payload is rejected. -/
theorem C3_frame_roundtrip_witness :
    read_frame ([STX, (encodeAsciiReplace "PRD").length] ++ encodeAsciiReplace "PRD" ++
        [checksum_data_only (encodeAsciiReplace "PRD")]) = .ok ("PRD", true) ∧
    build_frame "ABCDEFGHIJK" = none :=
  ⟨(C3_frame_roundtrip.1 "PRD" (by decide) (by decide) (by decide)).2,
   C3_frame_roundtrip.2 "ABCDEFGHIJK" (by decide)⟩

/-- C4: address resolution is stable and follows the numeral-base rules:
`RP` and `R_P_SW` resolve to coil 0, `M0000C` to 12 and `M00020` to 32
(hex for the `M` family), and `D00001` to 1 (decimal for the `D` family
when no hex letters occur). -/
theorem C4_address_resolution_stable :
    plcAddr (.inl "RP") = .ok 0 ∧ plcAddr (.inl "R_P_SW") = .ok 0 ∧
    plcAddr (.inl "M0000C") = .ok 12 ∧ plcAddr (.inl "M00020") = .ok 32 ∧
    plcAddr (.inl "D00001") = .ok 1 := by
  refine ⟨rfl, rfl, rfl, rfl, rfl⟩

unseal Rat.mul Rat.inv Rat.add Rat.sub Rat.ofScientific in
/-- C5 counterexample: the code removes *every* occurrence of `$` and `OK`
(not only leading ones) and falls back to whitespace tokens, so on the reply
`"1,O$K2"` it returns `2.0` where the claim's description yields `1.0`, and
on `"abc 1.5"` it returns `1.5` where the claim's description raises. -/
theorem C5_counterexample :
    query_pressure_parse "1,O$K2" = .ok 2 ∧
    queryPressureClaimed "1,O$K2" = .ok 1 ∧
    query_pressure_parse "abc 1.5" = .ok (3 / 2) ∧
    queryPressureClaimed "abc 1.5" = .error (.parseError "abc 1.5") ∧
    (2 : ℚ) ≠ 1 := by
  refine ⟨by decide, by decide, by decide, by decide, by norm_num⟩

unseal Rat.mul Rat.inv Rat.add Rat.sub Rat.ofScientific in
/-- C5 (amended): `query_pressure(1)` on `"$OK,1,0.00123"` returns `0.00123`;
in general the parser removes every occurrence of `$` and then of `OK`,
splits on commas, trims tokens and drops empties, takes the last
float-convertible token, falls back to the last float-convertible
whitespace-separated token of the `$`-stripped reply, and raises a parse
error only when both scans fail. -/
theorem C5_query_pressure_amended :
    query_pressure 1 "$OK,1,0.00123" = .ok (123 / 100000) ∧
    ∀ reply, query_pressure_parse reply = queryPressureAmendedSpec reply := by
  constructor
  · decide
  · intro reply
    unfold query_pressure_parse queryPressureAmendedSpec acsSplitStatusData findFloatFromEnd
    by_cases herr : strContainsSub reply "ERR_" = true
    · simp [herr]
    · simp only [Bool.not_eq_true] at herr
      by_cases hok : strStarts reply "OK" = true
      · simp only [herr, hok, Bool.false_eq_true, if_false, if_true]
        rw [findSome_reverse_eq_getLast, findSome_reverse_eq_getLast]
        simp
      · simp only [Bool.not_eq_true] at hok
        simp only [herr, hok, Bool.false_eq_true, if_false]
        rw [findSome_reverse_eq_getLast, findSome_reverse_eq_getLast]
        simp

/-- If a (stripped) name is a register-map key, or resolves through the
synonym table to a register-map key, then `_is_reg_name` accepts it. -/
theorem is_reg_name_of_regMapped (s : String)
    (H : (PLC_REG_MAP.lookup (pyStrip s)).isSome = true ∨
      ∃ c, synLookup (normKey (pyStrip s)) = some c ∧
        (PLC_REG_MAP.lookup c).isSome = true) :
    is_reg_name (.inl s) = true := by
  unfold is_reg_name
  rcases H with h | ⟨c, hc, hreg⟩
  · simp [h]
  · by_cases h1 : (PLC_REG_MAP.lookup (pyStrip s)).isSome = true
    · simp [h1]
    · simp [h1, hc, hreg]

/-- If a (stripped) name is a register-map key, or resolves through the
synonym table to a register-map key, then `_addr` resolves it. -/
theorem plcAddr_ok_of_regMapped (s : String)
    (H : (PLC_REG_MAP.lookup (pyStrip s)).isSome = true ∨
      ∃ c, synLookup (normKey (pyStrip s)) = some c ∧
        (PLC_REG_MAP.lookup c).isSome = true) :
    ∃ a, plcAddr (.inl s) = .ok a := by
  simp only [plcAddr]
  have hne : ¬ (pyStrip s = "") := by
    intro h0
    rcases H with h | ⟨c, hc, _⟩
    · rw [h0] at h
      exact absurd h (by decide)
    · rw [h0] at hc
      have hnone : synLookup (normKey "") = none := by decide
      rw [hnone] at hc
      cases hc
  rw [if_neg hne]
  cases hcoil : PLC_COIL_MAP.lookup (pyStrip s) with
  | some a => exact ⟨a, by simp [hcoil]⟩
  | none =>
    cases hregk : PLC_REG_MAP.lookup (pyStrip s) with
    | some a => exact ⟨a, by simp [hcoil, hregk]⟩
    | none =>
      rcases H with h | ⟨c, hc, hreg⟩
      · rw [hregk] at h
        cases h
      · rcases Option.isSome_iff_exists.mp hreg with ⟨a, ha⟩
        cases hcoilc : PLC_COIL_MAP.lookup c with
        | some b => exact ⟨b, by simp [hcoil, hregk, hc, hcoilc]⟩
        | none => exact ⟨a, by simp [hcoil, hregk, hc, hcoilc, ha]⟩

/-- C6: for every name the register map recognizes (a register-map key or a
synonym of one, e.g. `DAC_POWER_1`, `DAC_POWER_2`, `DAC1`, `DACPOWER2`),
`write_switch` raises the coil/register type-mismatch error and performs no
coil write. -/
theorem C6_writeSwitch_typeMismatch :
    ∀ (s : String) (onv momentary : Bool) (pm : Option ℤ) (cfgp : ℤ),
      ((PLC_REG_MAP.lookup (pyStrip s)).isSome = true ∨
        ∃ c, synLookup (normKey (pyStrip s)) = some c ∧
          (PLC_REG_MAP.lookup c).isSome = true) →
      write_switch (.inl s) onv momentary pm cfgp = .error .typeMismatch := by
  intro s onv momentary pm cfgp H
  obtain ⟨a, ha⟩ := plcAddr_ok_of_regMapped s H
  have hreg := is_reg_name_of_regMapped s H
  simp only [write_switch, ha, hreg, if_true]
  rfl

/-- C6 witness: `write_switch("DAC_POWER_1", True)` raises the type-mismatch
error. -/
theorem C6_writeSwitch_typeMismatch_witness :
    write_switch (.inl "DAC_POWER_1") true false none 180 = .error .typeMismatch :=
  C6_writeSwitch_typeMismatch "DAC_POWER_1" true false none 180 (Or.inl (by decide))

/-- C7: `_is_reg_name` accepts every name whose stripped upper-cased form
starts with `D` — including the coil names `DOOR` and `DOOR_SW` (coil
address 12) — so `write_switch` and `read_bit` raise the type-mismatch
error for them without any transport action, and `door()` always raises. -/
theorem C7_d_names_register_typed :
    (∀ s : String, strStarts (pyUpper (pyStrip s)) "D" = true →
      is_reg_name (.inl s) = true) ∧
    is_reg_name (.inl "DOOR") = true ∧ is_reg_name (.inl "DOOR_SW") = true ∧
    plcAddr (.inl "DOOR") = .ok 12 ∧ plcAddr (.inl "DOOR_SW") = .ok 12 ∧
    (∀ (onv momentary : Bool) (pm : Option ℤ) (cfgp : ℤ),
      write_switch (.inl "DOOR") onv momentary pm cfgp = .error .typeMismatch ∧
      write_switch (.inl "DOOR_SW") onv momentary pm cfgp = .error .typeMismatch) ∧
    (∀ coilState : ℤ → Bool,
      read_bit coilState (.inl "DOOR") = .error .typeMismatch) ∧
    (∀ (onv momentary : Bool) (cfgp : ℤ),
      door onv momentary cfgp = .error .typeMismatch) := by
  refine ⟨?_, by decide, by decide, rfl, rfl, ?_, ?_, ?_⟩
  · intro s h
    unfold is_reg_name
    by_cases h1 : (PLC_REG_MAP.lookup (pyStrip s)).isSome = true
    · simp [h1]
    · cases hsyn : synLookup (normKey (pyStrip s)) with
      | none => simp [h1, hsyn, h]
      | some c =>
        by_cases h2 : (PLC_REG_MAP.lookup c).isSome = true
        · simp [h1, hsyn, h2]
        · simp [h1, hsyn, h2, h]
  · intro onv momentary pm cfgp
    exact ⟨rfl, rfl⟩
  · intro coilState
    rfl
  · intro onv momentary cfgp
    rfl

/-- C7 witness: a name starting with `D` (here `"D9Z"`) is register-typed. -/
theorem C7_d_names_register_typed_witness :
    is_reg_name (.inl "D9Z") = true :=
  C7_d_names_register_typed.1 "D9Z" (by decide)

/-- Python `round` is the identity on integers. -/
theorem pyRound_intCast (n : ℤ) : pyRound ((n : ℤ) : ℚ) = n := by
  simp only [pyRound, ratFloor, Rat.num_intCast, Rat.den_intCast, Int.fdiv_one]
  norm_num

/-- Python `round(0.0) = 0`. -/
theorem pyRound_zero : pyRound 0 = 0 := by
  have h := pyRound_intCast 0
  simpa using h

unseal Rat.mul Rat.inv Rat.add Rat.sub Rat.ofScientific in
/-- C8 counterexample: the final clamp of `set_dac_voltage` is into
`[0, fullScaleCode]`, not `[offsetCode, offsetCode+fullScaleCode]`: with
offset code 1 and full scale 4095/10 V, 10 V yields code 4095, not
1 + 4095 = 4096 as the claim requires. -/
theorem C8_counterexample :
    set_dac_voltage ⟨4095, 10, 1⟩ 1 10 = .ok (4095, [.writeRegEv 0 4095]) ∧
    (4095 : ℤ) ≠ 1 + 4095 := by
  refine ⟨by decide, by decide⟩

/-- C8 (amended): `set_dac_voltage` clamps the voltage into its range, maps
it linearly, adds the offset code, clamps the result into
`[0, fullScaleCode]` (which coincides with the claim's
`[offsetCode, offsetCode+fullScaleCode]` only for the default offset 0); the
clamp is idempotent and bounded; the range minimum yields `offsetCode`, the
range maximum yields `fullScaleCode`; the code is written to channel 1's or
2's register, and any other channel raises `InvalidChannel`. -/
theorem C8_dac_scaling_amended :
    ∀ (cfg : DacCfg) (volt : ℚ) (ch : ℤ),
      0 < cfg.dac_full_scale_volt → 0 ≤ cfg.dac_offset_code →
      cfg.dac_offset_code ≤ cfg.dac_full_scale_code →
      (∀ c : ℤ,
        clampCode cfg.dac_full_scale_code (clampCode cfg.dac_full_scale_code c) =
          clampCode cfg.dac_full_scale_code c ∧
        0 ≤ clampCode cfg.dac_full_scale_code c ∧
        clampCode cfg.dac_full_scale_code c ≤ cfg.dac_full_scale_code) ∧
      (volt ≤ 0 → set_dac_voltage cfg 1 volt =
        .ok (cfg.dac_offset_code, [.writeRegEv 0 cfg.dac_offset_code])) ∧
      (cfg.dac_full_scale_volt ≤ volt → set_dac_voltage cfg 1 volt =
        .ok (cfg.dac_full_scale_code, [.writeRegEv 0 cfg.dac_full_scale_code])) ∧
      (∀ res, set_dac_voltage cfg 1 volt = .ok res →
        0 ≤ res.1 ∧ res.1 ≤ cfg.dac_full_scale_code ∧
        res.2 = [.writeRegEv 0 res.1]) ∧
      (∀ res, set_dac_voltage cfg 2 volt = .ok res →
        res.2 = [.writeRegEv 1 res.1]) ∧
      (ch ≠ 1 → ch ≠ 2 → set_dac_voltage cfg ch volt = .error .invalidChannel) := by
  intro cfg volt ch hfsv hoff hofffs
  have hfs0 : (0 : ℤ) ≤ cfg.dac_full_scale_code := le_trans hoff hofffs
  have hpow1 : ∀ code : ℤ, set_dac_power 1 code = .ok [PlcEvent.writeRegEv 0 code] :=
    fun _ => rfl
  have hpow2 : ∀ code : ℤ, set_dac_power 2 code = .ok [PlcEvent.writeRegEv 1 code] :=
    fun _ => rfl
  refine ⟨?_, ?_, ?_, ?_, ?_, ?_⟩
  · intro c
    simp only [clampCode]
    omega
  · intro hv
    have hv0 : max 0 (min cfg.dac_full_scale_volt volt) = 0 :=
      max_eq_left (le_trans (min_le_right _ _) hv)
    have hclamp : max 0 (min cfg.dac_full_scale_code (0 + cfg.dac_offset_code)) =
        cfg.dac_offset_code := by omega
    simp only [set_dac_voltage, hv0, zero_div, zero_mul, pyRound_zero, hclamp, hpow1]
    rfl
  · intro hv
    have hv1 : max 0 (min cfg.dac_full_scale_volt volt) = cfg.dac_full_scale_volt := by
      rw [min_eq_left hv]
      exact max_eq_right (le_of_lt hfsv)
    have hdiv : cfg.dac_full_scale_volt / cfg.dac_full_scale_volt *
        (cfg.dac_full_scale_code : ℚ) = ((cfg.dac_full_scale_code : ℤ) : ℚ) := by
      rw [div_self (ne_of_gt hfsv), one_mul]
    have hclamp : max 0 (min cfg.dac_full_scale_code
        (cfg.dac_full_scale_code + cfg.dac_offset_code)) = cfg.dac_full_scale_code := by
      omega
    simp only [set_dac_voltage, hv1, hdiv, pyRound_intCast, hclamp, hpow1]
    rfl
  · intro res hres
    simp only [set_dac_voltage, hpow1] at hres
    have hres2 : res = (max 0 (min cfg.dac_full_scale_code
        (pyRound (max 0 (min cfg.dac_full_scale_volt volt) / cfg.dac_full_scale_volt *
          (cfg.dac_full_scale_code : ℚ)) + cfg.dac_offset_code)),
        [PlcEvent.writeRegEv 0 (max 0 (min cfg.dac_full_scale_code
          (pyRound (max 0 (min cfg.dac_full_scale_volt volt) / cfg.dac_full_scale_volt *
            (cfg.dac_full_scale_code : ℚ)) + cfg.dac_offset_code)))]) := by
      cases hres
      rfl
    subst hres2
    refine ⟨le_max_left _ _, by omega, rfl⟩
  · intro res hres
    simp only [set_dac_voltage, hpow2] at hres
    cases hres
    rfl
  · intro h1 h2
    simp only [set_dac_voltage, set_dac_power, if_neg h1, if_neg h2]
    rfl

unseal Rat.mul Rat.inv Rat.add Rat.sub Rat.ofScientific in
/-- C8 witness: with the source's default DAC configuration, 0 V yields code
0, 10 V yields code 4095 written to register 0, and channel 3 raises. -/
theorem C8_dac_scaling_amended_witness :
    set_dac_voltage ⟨4095, 10, 0⟩ 1 0 = .ok (0, [.writeRegEv 0 0]) ∧
    set_dac_voltage ⟨4095, 10, 0⟩ 1 10 = .ok (4095, [.writeRegEv 0 4095]) ∧
    set_dac_voltage ⟨4095, 10, 0⟩ 3 5 = .error .invalidChannel := by
  refine ⟨?_, ?_, ?_⟩
  · exact ((C8_dac_scaling_amended ⟨4095, 10, 0⟩ 0 1 (by norm_num) (by norm_num)
      (by norm_num)).2.1 (le_refl 0))
  · exact ((C8_dac_scaling_amended ⟨4095, 10, 0⟩ 10 1 (by norm_num) (by norm_num)
      (by norm_num)).2.2.1 (by norm_num))
  · exact ((C8_dac_scaling_amended ⟨4095, 10, 0⟩ 5 3 (by norm_num) (by norm_num)
      (by norm_num)).2.2.2.2.2 (by norm_num) (by norm_num))

/-- C9: for each primitive, a transport error matching a reset signature
triggers exactly one close-reopen-retry of the same call with the same
arguments, a failing retry propagates its error unmodified, and a non-reset
error propagates immediately with a single transport call. -/
theorem C9_reset_retry :
    ∀ (addr v : ℤ) (b : Bool) (e1 e2 : String) (o2 : Except String MbResp),
      (is_reset_err e1 = false →
        read_coil addr (.error e1) o2 =
          (.error e1, [.clientCall (.readCoilsC addr 1)]) ∧
        write_coil addr b (.error e1) o2 =
          (.error e1, [.clientCall (.writeCoilC addr b)]) ∧
        read_reg addr (.error e1) o2 =
          (.error e1, [.clientCall (.readHoldingC addr 1)]) ∧
        write_reg addr v (.error e1) o2 =
          (.error e1, [.clientCall (.writeRegisterC addr v)])) ∧
      (is_reset_err e1 = true →
        read_coil addr (.error e1) (.error e2) = (.error e2,
          [.clientCall (.readCoilsC addr 1), .closeConn, .openConn,
           .clientCall (.readCoilsC addr 1)]) ∧
        write_coil addr b (.error e1) (.error e2) = (.error e2,
          [.clientCall (.writeCoilC addr b), .closeConn, .openConn,
           .clientCall (.writeCoilC addr b)]) ∧
        read_reg addr (.error e1) (.error e2) = (.error e2,
          [.clientCall (.readHoldingC addr 1), .closeConn, .openConn,
           .clientCall (.readHoldingC addr 1)]) ∧
        write_reg addr v (.error e1) (.error e2) = (.error e2,
          [.clientCall (.writeRegisterC addr v), .closeConn, .openConn,
           .clientCall (.writeRegisterC addr v)]) ∧
        (read_coil addr (.error e1) o2).2 =
          [.clientCall (.readCoilsC addr 1), .closeConn, .openConn,
           .clientCall (.readCoilsC addr 1)]) := by
  intro addr v b e1 e2 o2
  constructor
  · intro h
    refine ⟨?_, ?_, ?_, ?_⟩ <;>
      (simp [read_coil, write_coil, read_reg, write_reg, withResetRetry, h]; try rfl)
  · intro h
    refine ⟨?_, ?_, ?_, ?_, ?_⟩ <;>
      (simp [read_coil, write_coil, read_reg, write_reg, withResetRetry, h]; try rfl)

/-- C9 witness: a reset-signature first failure retries once and propagates
the retry's error; a non-reset failure propagates at once with one call. -/
theorem C9_reset_retry_witness :
    read_coil 0 (.error "ConnectionResetError(10054, reset by peer)")
        (.error "timed out") =
      (.error "timed out", [.clientCall (.readCoilsC 0 1), .closeConn, .openConn,
        .clientCall (.readCoilsC 0 1)]) ∧
    read_coil 0 (.error "some other failure") (.error "x") =
      (.error "some other failure", [.clientCall (.readCoilsC 0 1)]) := by
  constructor
  · exact ((C9_reset_retry 0 0 true "ConnectionResetError(10054, reset by peer)"
      "timed out" (.error "timed out")).2 (by decide)).1
  · exact ((C9_reset_retry 0 0 true "some other failure" "x"
      (.error "x")).1 (by decide)).1

unseal Rat.mul Rat.inv Rat.add Rat.sub Rat.ofScientific in
/-- C10 counterexample: the background loop sleeps `max(1, hb/3)` — for
`hb = 0.3` that is 1 second, not one third of the interval — and it performs
the trivial read of coil 0 even when the connection has been idle 0 seconds
(< heartbeat interval 15), contradicting the claim's "only when idle longer
than the heartbeat interval". -/
theorem C10_counterexample :
    hbSleep (3 / 10) = 1 ∧ (1 : ℚ) ≠ (3 / 10) / 3 ∧
    heartbeat_iterate ⟨false, false, true, 0, 15⟩ (.ok true) = .ok .readDone ∧
    hbDidRead .readDone = true ∧ ¬((0 : ℚ) > 15) := by
  refine ⟨?_, by norm_num, rfl, rfl, by norm_num⟩
  · unfold hbSleep
    rw [max_eq_left (by norm_num : (3 : ℚ) / 10 / 3 ≤ 1)]

/-- C10 (amended): the background task wakes every `max(1s, hb/3)` seconds
(`hb/3` exactly when `hb ≥ 3`); after waking it performs the trivial read of
coil 0 whenever the loop is not closed, heartbeat is not paused and a client
exists — with no idle-time condition; every failure of that read is
swallowed.  The idle-longer-than-interval condition instead governs the
inline keepalive of `_throttle_and_heartbeat`. -/
theorem C10_heartbeat_amended :
    (∀ hb : ℚ, 3 ≤ hb → hbSleep hb = hb / 3) ∧
    (∀ hb : ℚ, 1 ≤ hbSleep hb) ∧
    (∀ (st : HbCtx) (o : Except String Bool),
      ∃ r, heartbeat_iterate st o = .ok r ∧
        (hbDidRead r = true ↔
          st.closed = false ∧ st.paused = false ∧ st.clientPresent = true)) ∧
    (∀ (delta gap hb : ℚ) (p c : Bool),
      ((throttle_and_heartbeat delta gap hb p c).2 = true ↔
        hb < delta ∧ p = false ∧ c = true)) := by
  refine ⟨?_, ?_, ?_, ?_⟩
  · intro hb h
    unfold hbSleep
    rw [max_eq_right]
    linarith
  · intro hb
    exact le_max_left 1 _
  · intro st o
    rcases st with ⟨closed, paused, client, idle, hb⟩
    cases closed
    · cases paused
      · cases client
        · exact ⟨.skipped, rfl, by simp [hbDidRead]⟩
        · cases o with
          | ok val => exact ⟨.readDone, rfl, by simp [hbDidRead]⟩
          | error e => exact ⟨.readFailed, rfl, by simp [hbDidRead]⟩
      · exact ⟨.skipped, rfl, by simp [hbDidRead]⟩
    · exact ⟨.stopped, rfl, by simp [hbDidRead]⟩
  · intro delta gap hb p c
    simp [throttle_and_heartbeat]
    tauto

/-- C10 witness: with the source's default 15 s heartbeat interval the
background task wakes every 5 s. -/
theorem C10_heartbeat_amended_witness : hbSleep 15 = 5 := by
  rw [C10_heartbeat_amended.1 15 (by norm_num)]
  norm_num
